import Mathlib

/-!
Verification of the stock-valuation data-acquisition and Monte Carlo engine.

This file is a shallow embedding, over `ℚ`, of the Python modules
`src/data/fetchers/base_fetcher.py`, `src/data/fetchers/data_service.py`,
`src/data/models/dcf_model.py` and `src/data/models/monte_carlo.py`.
Floating-point numbers are modelled as exact rationals; machinery that is
irrelevant to the verified properties (logging, asyncio scheduling, the
network itself, tqdm progress bars) is dropped.  Random draws and normal
shocks are passed in as explicit lists, so every function is a pure function
of its inputs, mirroring the "pure function of its inputs plus a random
source" contract of the engine.
-/

namespace StockVal

/-- Python scalar values as they can appear in a provider payload dict entry:
`None`, an int/float (collapsed to `ℚ`), or a string whose optional payload is
its numeric reading (`some q` for a parseable string, `none` for one on which
`float(...)` raises `ValueError`). -/
inductive PyVal : Type where
  | pyNone : PyVal
  | num (q : ℚ) : PyVal
  | strVal (numeric : Option ℚ) : PyVal
deriving DecidableEq

/-- Exception taxonomy of the fetch layer (`base_fetcher.py`) plus the Python
builtins that the code can raise: `DataFetchError(msg)`, its subclass
`RetryExhaustedError`, pydantic `ValidationError`, `TypeError`, `ValueError`. -/
inductive PyErr : Type where
  | dataFetch (msg : String) : PyErr
  | retryExhausted : PyErr
  | validationErr (msg : String) : PyErr
  | typeErr : PyErr
  | valueErr : PyErr
deriving DecidableEq

/-- Python `float(v)`: numbers convert to themselves, `float(None)` raises
`TypeError`, a non-numeric string raises `ValueError`. -/
def pyFloat : PyVal → Except PyErr ℚ
  | .num q => .ok q
  | .pyNone => .error .typeErr
  | .strVal (some q) => .ok q
  | .strVal none => .error .valueErr

/-- Python truthiness of an optional dict entry, as used by
`data.get('pe_ratio')` in `_normalize_market_data`: a missing key and `None`
are falsy, `0` is falsy, non-zero numbers are truthy; strings are modelled as
non-empty, hence truthy. -/
def pyTruthy : Option PyVal → Bool
  | Option.none => false
  | some .pyNone => false
  | some (.num q) => decide (q ≠ 0)
  | some (.strVal _) => true

/-- One step of the `retry` decorator of `base_fetcher.py` with `left`
remaining retries beyond the current attempt.  The wrapped operation is a
function of the attempt index; it either returns a value or raises.  Only a
`DataFetchError` is caught and retried, with backoff
`backoff_factor * 2 ** retries`; any other exception propagates at once.
The result records the value or final error, the number of attempts made, and
the list of backoff waits performed. -/
def retryAux {α : Type} (backoff_factor : ℚ) (op : Nat → Except PyErr α) :
    Nat → Nat → Except PyErr α × Nat × List ℚ
  | attempt, 0 =>
    match op attempt with
    | .ok a => (.ok a, attempt + 1, [])
    | .error (.dataFetch _) => (.error .retryExhausted, attempt + 1, [])
    | .error e => (.error e, attempt + 1, [])
  | attempt, left + 1 =>
    match op attempt with
    | .ok a => (.ok a, attempt + 1, [])
    | .error (.dataFetch _) =>
      let wait_time := backoff_factor * 2 ^ attempt
      let r := retryAux backoff_factor op (attempt + 1) left
      (r.1, r.2.1, wait_time :: r.2.2)
    | .error e => (.error e, attempt + 1, [])

/-- The `retry(max_retries, backoff_factor)` decorator of `base_fetcher.py`
applied to an operation: attempts run while `retries <= max_retries`. -/
def retry {α : Type} (max_retries : Nat) (backoff_factor : ℚ)
    (op : Nat → Except PyErr α) : Except PyErr α × Nat × List ℚ :=
  retryAux backoff_factor op 0 max_retries

/-- Raw market payload as a provider hands it over: a dict whose entries may
be absent, `None`, numeric or strings. -/
structure RawMarket : Type where
  price : Option PyVal
  volume : Option PyVal
  pe_ratio : Option PyVal
  currency : Option String
deriving DecidableEq

/-- Raw financial payload from a provider. -/
structure RawFinancials : Type where
  revenue : Option PyVal
  net_income : Option PyVal
  eps : Option PyVal
  report_date : Option String
  currency : Option String
deriving DecidableEq

/-- Normalized market record (`_normalize_market_data` output).  `volume` is
kept as its numeric value (the `int(...)` truncation is not modelled: no
verified property depends on volume), `pe_ratio` is `None` exactly when the
raw entry was falsy, and the timestamp is dropped. -/
structure MarketRec : Type where
  source : String
  price : ℚ
  volume : ℚ
  pe_ratio : Option ℚ
  currency : String
deriving DecidableEq

/-- Normalized financial record (`_normalize_financials` output); the report
date string is dropped. -/
structure FinancialRec : Type where
  source : String
  revenue : ℚ
  net_income : ℚ
  eps : Option ℚ
  currency : String
deriving DecidableEq

namespace BaseFetcher

/-- The shape check `_validate_market_data`: the payload must carry a numeric
`price`, else a pydantic `ValidationError` is raised.  (In the source the
`isinstance(data, dict)` test always passes for a dict payload.) -/
def validate_market_data (data : RawMarket) : Except PyErr RawMarket :=
  match data.price with
  | some (.num _) => .ok data
  | _ => .error (.validationErr "missing valid price data")

/-- The shape check `_validate_financials`: `revenue` and `net_income` must be
present and numeric, checked in that order. -/
def validate_financials (data : RawFinancials) : Except PyErr RawFinancials :=
  match data.revenue with
  | some (.num _) =>
    match data.net_income with
    | some (.num _) => .ok data
    | _ => .error (.validationErr "missing valid net_income data")
  | _ => .error (.validationErr "missing valid revenue data")

/-- Field normalization `_normalize_market_data`: `float(data.get('price', 0))`,
`pe_ratio` converted only when truthy (else `None`), `currency` defaulted to
`'USD'`.  Conversions raise through `Except` like the Python `float` calls. -/
def normalize_market_data (source_name : String) (data : RawMarket) :
    Except PyErr MarketRec := do
  let price ← pyFloat (data.price.getD (.num 0))
  let volume ← pyFloat (data.volume.getD (.num 0))
  let pe_ratio ← if pyTruthy data.pe_ratio then
      (pyFloat (data.pe_ratio.getD (.num 0))).map some
    else
      pure Option.none
  pure { source := source_name, price := price, volume := volume,
         pe_ratio := pe_ratio, currency := data.currency.getD "USD" }

/-- Field normalization `_normalize_financials`. -/
def normalize_financials (source_name : String) (data : RawFinancials) :
    Except PyErr FinancialRec := do
  let revenue ← pyFloat (data.revenue.getD (.num 0))
  let net_income ← pyFloat (data.net_income.getD (.num 0))
  let eps ← if pyTruthy data.eps then
      (pyFloat (data.eps.getD (.num 0))).map some
    else
      pure Option.none
  pure { source := source_name, revenue := revenue, net_income := net_income,
         eps := eps, currency := data.currency.getD "USD" }

/-- One attempt of the body of `fetch_market_data` on a cold cache: fetch the
raw payload, validate, normalize; the enclosing `except Exception` turns every
failure — raw fetch errors and validation errors alike — into a
`DataFetchError`. -/
def fetch_market_attempt (source_name : String)
    (raw : Except PyErr RawMarket) : Except PyErr MarketRec :=
  match (raw.bind validate_market_data).bind (normalize_market_data source_name) with
  | .ok m => .ok m
  | .error _ => .error (.dataFetch (source_name ++ "市场数据获取失败"))

/-- One attempt of the body of `fetch_financials` on a cold cache. -/
def fetch_financials_attempt (source_name : String)
    (raw : Except PyErr RawFinancials) : Except PyErr FinancialRec :=
  match (raw.bind validate_financials).bind (normalize_financials source_name) with
  | .ok f => .ok f
  | .error _ => .error (.dataFetch (source_name ++ "财务数据获取失败"))

/-- `fetch_market_data` as decorated by `@retry(max_retries=3)` (default
backoff factor `0.5`), on a cold cache: `raw n` is the provider payload seen
by attempt `n`. -/
def fetch_market_data (source_name : String)
    (raw : Nat → Except PyErr RawMarket) : Except PyErr MarketRec × Nat × List ℚ :=
  retry 3 (1/2) (fun n => fetch_market_attempt source_name (raw n))

/-- `fetch_financials` as decorated by `@retry(max_retries=3)`, on a cold
cache. -/
def fetch_financials (source_name : String)
    (raw : Nat → Except PyErr RawFinancials) : Except PyErr FinancialRec × Nat × List ℚ :=
  retry 3 (1/2) (fun n => fetch_financials_attempt source_name (raw n))

end BaseFetcher

namespace MonteCarloValuator

/-- The dict entry `market_data['pe_ratio']` of a normalized record: the key
is always present after normalization, holding `None` or a float. -/
def MarketRec.peField (m : MarketRec) : Option PyVal :=
  match m.pe_ratio with
  | Option.none => some .pyNone
  | some q => some (.num q)

/-- `_get_pe` of `monte_carlo.py`: convert `market_data.get('pe_ratio', 0)`
with `float`, fall back to the default PE 15 on a non-positive or > 50 value;
the `except (KeyError, ValueError)` clause catches exactly those two error
classes — a `TypeError` from `float(None)` is not caught and propagates. -/
def get_pe (pe_entry : Option PyVal) : Except PyErr ℚ :=
  let default_pe : ℚ := 15
  match pyFloat (pe_entry.getD (.num 0)) with
  | .error .valueErr => .ok default_pe
  | .error e => .error e
  | .ok pe_ratio =>
    if pe_ratio ≤ 0 ∨ 50 < pe_ratio then .ok default_pe else .ok pe_ratio

end MonteCarloValuator

namespace DCFValuation

/-- The high-growth cash flows `[fcf * (1 + growth_rate)**i for i in
range(1, N+1)]` of `DCFValuation.calculate`, in order.  The comprehension
reads the variable `fcf` but never reassigns it. -/
def high_growth_flows (fcf growth_rate : ℚ) : Nat → List ℚ
  | 0 => []
  | n + 1 => high_growth_flows fcf growth_rate n ++ [fcf * (1 + growth_rate) ^ (n + 1)]

/-- The transition-phase loop of `DCFValuation.calculate`:
`transition_growth -= decline_rate; fcf *= (1 + transition_growth)` repeated,
each new `fcf` appended.  Returns the appended cash flows together with the
final value of `fcf` (used for the terminal value). -/
def transition_loop (decline_rate : ℚ) : Nat → ℚ → ℚ → List ℚ × ℚ
  | 0, _, fcf => ([], fcf)
  | n + 1, transition_growth, fcf =>
    let tg := transition_growth - decline_rate
    let fcf2 := fcf * (1 + tg)
    let r := transition_loop decline_rate n tg fcf2
    (fcf2 :: r.1, r.2)

/-- Present value of a cash-flow list under exponential discounting, the flow
at list position `k` (zero-based) discounted by `1 / (1+r) ** (i0 + k)`;
`calculate` uses `i0 = 1`. -/
def discounted_sum (discount_rate : ℚ) : Nat → List ℚ → ℚ
  | _, [] => 0
  | i, cf :: rest => cf / (1 + discount_rate) ^ i + discounted_sum discount_rate (i + 1) rest

/-- `DCFValuation.calculate` of `dcf_model.py`, faithful to the source: the
Python list comprehension building the high-growth flows never reassigns
`fcf`, so the transition loop starts compounding from the *initial* free cash
flow, and the terminal value is built on the last transition flow so obtained.
Division is the total division of `ℚ` (the Python code would raise
`ZeroDivisionError` when `discount_rate == terminal_growth`; every verified
statement about concrete values keeps the two apart). -/
def calculate (free_cash_flow : ℚ) (dcf_growth_years : Nat)
    (growth_rate discount_rate terminal_growth : ℚ) : ℚ :=
  let transition_years : Nat := 3
  let fcf := free_cash_flow
  let high_growth := high_growth_flows fcf growth_rate dcf_growth_years
  let decline_rate := (growth_rate - terminal_growth) / (transition_years + 1)
  let t := transition_loop decline_rate transition_years growth_rate fcf
  let terminal_value := t.2 * (1 + terminal_growth) / (discount_rate - terminal_growth)
  discounted_sum discount_rate 1 (high_growth ++ t.1 ++ [terminal_value])

/-- Modelled from the claim's words, for the refinement comparison with
`calculate`: identical three-phase computation except that the transition
phase continues compounding from the year-`N` cash flow
`fcf * (1 + growth_rate) ** N`, i.e. the year-`N+1` flow builds on the
year-`N` flow. -/
def calculate_claim (free_cash_flow : ℚ) (dcf_growth_years : Nat)
    (growth_rate discount_rate terminal_growth : ℚ) : ℚ :=
  let transition_years : Nat := 3
  let fcf := free_cash_flow
  let high_growth := high_growth_flows fcf growth_rate dcf_growth_years
  let fcfN := fcf * (1 + growth_rate) ^ dcf_growth_years
  let decline_rate := (growth_rate - terminal_growth) / (transition_years + 1)
  let t := transition_loop decline_rate transition_years growth_rate fcfN
  let terminal_value := t.2 * (1 + terminal_growth) / (discount_rate - terminal_growth)
  discounted_sum discount_rate 1 (high_growth ++ t.1 ++ [terminal_value])

end DCFValuation

/-- Python's banker's rounding `round(x)` on exact values: nearest integer,
ties to the even one. -/
def roundHalfEven (x : ℚ) : ℤ :=
  if Int.fract x < 1/2 then ⌊x⌋
  else if 1/2 < Int.fract x then ⌊x⌋ + 1
  else if ⌊x⌋ % 2 = 0 then ⌊x⌋ else ⌊x⌋ + 1

/-- Python's `round(x, ndigits)` on exact values. -/
def pyRound (ndigits : Nat) (x : ℚ) : ℚ :=
  (roundHalfEven (x * 10 ^ ndigits) : ℚ) / 10 ^ ndigits

/-- `np.clip(x, lo, hi)`, evaluated as `minimum(maximum(x, lo), hi)`. -/
def npClip (x lo hi : ℚ) : ℚ := min (max x lo) hi

/-- `np.percentile(xs, q)` with the default linear interpolation: sort, take
the virtual index `q * (n-1) / 100`, and interpolate between the two adjacent
order statistics.  Empty input is mapped to `0` (numpy raises; the engine
never calls it on an empty array since the simulation count is positive). -/
def npPercentile (xs : List ℚ) (q : ℚ) : ℚ :=
  let s := xs.insertionSort (· ≤ ·)
  let n : ℚ := s.length
  let pos := q * (n - 1) / 100
  let i := (⌊pos⌋).toNat
  let frac := pos - ⌊pos⌋
  let a := s.getD i 0
  let b := s.getD (i + 1) a
  a + frac * (b - a)

/-- `np.mean` of a rational list (empty input mapped to `0`). -/
def listMean (xs : List ℚ) : ℚ := xs.sum / xs.length

namespace MonteCarloValuator

/-- One draw of `_run_monte_carlo`'s loop body: the sampled
`(growth, discount, pe)` triple produces a 70/30 blend of the DCF value and
`pe * eps`, clipped into `[0.8, 1.5] * current_price`; `terminal_growth` is
the fixed `0.02`. -/
def run_monte_carlo (free_cash_flow eps : ℚ) (dcf_growth_years : Nat)
    (current_price : ℚ) (draws : List (ℚ × ℚ × ℚ)) : List ℚ :=
  draws.map fun d =>
    let dcf_val := DCFValuation.calculate free_cash_flow dcf_growth_years d.1 d.2.1 (1/50)
    let pe_val := d.2.2 * eps
    let combined_val := dcf_val * (7/10) + pe_val * (3/10)
    npClip combined_val (current_price * (4/5)) (current_price * (3/2))

/-- `_calculate_probabilities`: fractions of draws whose relative deviation
from the current price is below `-10%` / above `+10%`, the remainder fair,
each rounded to 4 decimals.  Returns
`(undervalued, overvalued, fair_valued)`. -/
def calculate_probabilities (simulations : List ℚ) (current_price : ℚ) :
    ℚ × ℚ × ℚ :=
  let n : ℚ := simulations.length
  let undervalued : ℚ :=
    (simulations.countP fun s => decide ((s - current_price) / current_price < -(1/10))) / n
  let overvalued : ℚ :=
    (simulations.countP fun s => decide ((1:ℚ)/10 < (s - current_price) / current_price)) / n
  let fairly_valued := 1 - undervalued - overvalued
  (pyRound 4 undervalued, pyRound 4 overvalued, pyRound 4 fairly_valued)

/-- The quarterly loop of `_predict_next_quarters`: each normal shock `z`
yields `quarterly_return = drift/4 + sigma/2 * z`, the running price is
updated, clipped into `[0.8, 1.2] * current_price`, and its 2-decimal
rounding appended; the running price stays unrounded. -/
def predict_quarters_loop (current_price drift sigma : ℚ) :
    List ℚ → ℚ → List ℚ
  | [], _ => []
  | z :: zs, price =>
    let quarterly_return := drift / 4 + sigma / 2 * z
    let price2 := price * (1 + quarterly_return)
    let price3 := npClip price2 (current_price * (4/5)) (current_price * (6/5))
    pyRound 2 price3 :: predict_quarters_loop current_price drift sigma zs price3

/-- `_predict_next_quarters`: drift clipped to `±10%`, volatility to
`[5%, 20%]`, then the quarterly loop starting from the current price. -/
def predict_next_quarters (current_price drift sigma : ℚ) (shocks : List ℚ) : List ℚ :=
  let drift2 := npClip drift (-(1/10)) (1/10)
  let sigma2 := npClip sigma (1/20) (1/5)
  predict_quarters_loop current_price drift2 sigma2 shocks current_price

/-- The `ValuationResult` returned by `run_simulation`: the valuation range,
the three probabilities, and the predicted quarterly prices. -/
structure ValuationResult : Type where
  low : ℚ
  medium : ℚ
  high : ℚ
  undervalued : ℚ
  overvalued : ℚ
  fair_valued : ℚ
  next_quarters : List ℚ
deriving DecidableEq

/-- `run_simulation` of `monte_carlo.py`.  `price` is the
`market_data.get('price', 0)` entry (`none` for a missing key), `draws` the
sampled `(growth, discount, pe)` triples, `shocks` the normal shocks of the
quarterly forecast.  `sigma` — the draw-set standard deviation `np.std`
normalized by price — is the one quantity not expressible in `ℚ` and is
passed as a parameter; `mu` is computed from the draw set as in the source,
and `drift = mu - sigma²/2` when `sigma > 0`.  A non-positive (or missing)
price raises `ValueError` before any simulation work. -/
def run_simulation (price : Option ℚ) (free_cash_flow : ℚ) (eps : Option ℚ)
    (dcf_growth_years : Nat) (draws : List (ℚ × ℚ × ℚ)) (sigma : ℚ)
    (shocks : List ℚ) : Except PyErr ValuationResult :=
  let current_price := price.getD 0
  if current_price ≤ 0 then .error .valueErr
  else
    let simulations := run_monte_carlo free_cash_flow (eps.getD 0) dcf_growth_years
      current_price draws
    let mu := listMean simulations / current_price - 1
    let drift := if 0 < sigma then mu - sigma ^ 2 / 2 else mu
    let probs := calculate_probabilities simulations current_price
    .ok { low := npPercentile simulations 25
          medium := npPercentile simulations 50
          high := npPercentile simulations 75
          undervalued := probs.1
          overvalued := probs.2.1
          fair_valued := probs.2.2
          next_quarters := predict_next_quarters current_price drift sigma shocks }

end MonteCarloValuator

/-- Outcome of consulting one source in the failover loop of
`data_service.py`: `is_available()` returned `False`; `is_available()` raised;
the fetch raised; or the fetch returned data. -/
inductive FetchOutcome (α : Type) : Type where
  | unavailable : FetchOutcome α
  | availError (reason : String) : FetchOutcome α
  | fetchError (reason : String) : FetchOutcome α
  | fetchOk (data : α) : FetchOutcome α
deriving DecidableEq

/-- One configured source as the coordinator sees it: its name, whether a
fetcher object is registered for it in `self.fetchers`, and what consulting
it would do. -/
structure SourceSpec (α : Type) : Type where
  name : String
  registered : Bool
  outcome : FetchOutcome α
deriving DecidableEq

/-- Python's `'; '.join(errors)`. -/
def joinErrors : List String → String
  | [] => ""
  | [e] => e
  | e :: rest => e ++ "; " ++ joinErrors rest

namespace DataService

/-- The per-source error notes accumulated by a full pass of the failover
loop: one `"name: reason"` entry for every non-skipped, registered source
whose availability check or fetch raised. -/
def collect_errors {α : Type} (skip : String → Bool) :
    List (SourceSpec α) → List String
  | [] => []
  | s :: rest =>
    if skip s.name ∨ !s.registered then collect_errors skip rest
    else
      match s.outcome with
      | .availError r => (s.name ++ ": " ++ r) :: collect_errors skip rest
      | .fetchError r => (s.name ++ ": " ++ r) :: collect_errors skip rest
      | _ => collect_errors skip rest

/-- The failover loop shared by `get_market_data` and `get_financials`:
iterate the priority list, skipping the `skip`-set and unregistered names;
an unavailable source is passed over silently, an exception appends an error
note, a successful fetch returns.  When the list is exhausted an aggregate
`Exception` carrying the header and the joined error notes is raised.  The
second component of the result is the list of sources whose *fetch* was
actually invoked. -/
def failover_loop {α : Type} (skip : String → Bool) (header : String) :
    List (SourceSpec α) → List String → List String → Except String α × List String
  | [], errors, invoked => (.error (header ++ joinErrors errors), invoked)
  | s :: rest, errors, invoked =>
    if skip s.name then failover_loop skip header rest errors invoked
    else if !s.registered then failover_loop skip header rest errors invoked
    else
      match s.outcome with
      | .unavailable => failover_loop skip header rest errors invoked
      | .availError r =>
        failover_loop skip header rest (errors ++ [s.name ++ ": " ++ r]) invoked
      | .fetchError r =>
        failover_loop skip header rest (errors ++ [s.name ++ ": " ++ r]) (invoked ++ [s.name])
      | .fetchOk d => (.ok d, invoked ++ [s.name])

/-- `DataService.get_market_data`: the failover loop over the configured
priority list, skipping nothing. -/
def get_market_data {α : Type} (sources : List (SourceSpec α)) :
    Except String α × List String :=
  failover_loop (fun _ => false) "所有数据源均不可用\n详细错误: " sources [] []

/-- `DataService.get_financials`: the failover loop with `alpha_vantage`
unconditionally skipped (`if source_name == 'alpha_vantage': continue`). -/
def get_financials {α : Type} (sources : List (SourceSpec α)) :
    Except String α × List String :=
  failover_loop (fun n => decide (n = "alpha_vantage")) "无法获取财务数据\n详细错误: "
    sources [] []

end DataService

/-! ## Auxiliary lemmas about rounding -/

theorem abs_roundHalfEven_sub_le (x : ℚ) : |(roundHalfEven x : ℚ) - x| ≤ 1/2 := by
  have hf : Int.fract x = x - ⌊x⌋ := rfl
  have h0 : (0:ℚ) ≤ x - ⌊x⌋ := by
    have := Int.floor_le x
    linarith
  have h1 : x - ⌊x⌋ < 1 := by
    have := Int.lt_floor_add_one x
    linarith
  unfold roundHalfEven
  rw [hf]
  split_ifs <;> (rw [abs_le]; constructor <;> push_cast <;> linarith)

theorem roundHalfEven_intCast (n : ℤ) : roundHalfEven (n : ℚ) = n := by
  unfold roundHalfEven
  simp [Int.fract_intCast, Int.floor_intCast]

theorem pyRound_pyRound (k : Nat) (x : ℚ) : pyRound k (pyRound k x) = pyRound k x := by
  unfold pyRound
  have h10 : (10:ℚ) ^ k ≠ 0 := by positivity
  have h : (roundHalfEven (x * 10 ^ k) : ℚ) / 10 ^ k * 10 ^ k
      = (roundHalfEven (x * 10 ^ k) : ℚ) := by
    field_simp
  rw [h, roundHalfEven_intCast]

theorem abs_pyRound_sub_le (k : Nat) (x : ℚ) : |pyRound k x - x| ≤ 1 / (2 * 10 ^ k) := by
  have hp : (0:ℚ) < 10 ^ k := by positivity
  have h := abs_roundHalfEven_sub_le (x * 10 ^ k)
  unfold pyRound
  have e : (roundHalfEven (x * 10 ^ k) : ℚ) / 10 ^ k - x
      = ((roundHalfEven (x * 10 ^ k) : ℚ) - x * 10 ^ k) / 10 ^ k := by
    field_simp
    ring
  rw [e, abs_div, abs_of_pos hp, div_le_iff₀ hp]
  have e2 : 1 / (2 * (10:ℚ) ^ k) * 10 ^ k = 1/2 := by
    field_simp
    ring
  rw [e2]
  exact h

/-! ## C8 — retry/backoff behavior of the retry wrapper -/

/-- C8: with the default parameters `max_retries = 3`, `backoff_factor = 0.5`,
an operation that always raises a `DataFetchError` ends in a
`RetryExhaustedError` — a failure distinct from the underlying fetch failure —
after exactly 4 attempts, with backoff waits `0.5, 1, 2`; an operation that
fails twice with `DataFetchError` and then succeeds yields its result after
exactly the 2 backoff waits `0.5, 1`. -/
theorem c8_retry_behavior :
    (∀ (α : Type) (op : Nat → Except PyErr α) (msg : Nat → String),
      (∀ n, op n = .error (.dataFetch (msg n))) →
      retry 3 (1/2) op = (.error .retryExhausted, 4, [1/2, 1, 2])
        ∧ ∀ m, PyErr.retryExhausted ≠ PyErr.dataFetch m)
  ∧ (∀ (α : Type) (op : Nat → Except PyErr α) (m0 m1 : String) (v : α),
      op 0 = .error (.dataFetch m0) → op 1 = .error (.dataFetch m1) →
      op 2 = .ok v →
      retry 3 (1/2) op = (.ok v, 3, [1/2, 1])) := by
  constructor
  · intro α op msg h
    refine ⟨?_, by intro m hm; cases hm⟩
    have e0 := h 0
    have e1 := h 1
    have e2 := h 2
    have e3 := h 3
    simp only [retry, retryAux, e0, e1, e2, e3]
    norm_num
  · intro α op m0 m1 v h0 h1 h2
    simp only [retry, retryAux, h0, h1, h2]
    norm_num

/-- C8 witness: the theorem instantiated at two concrete operations. -/
theorem c8_retry_behavior_witness :
    (retry 3 (1/2) (fun _ => (.error (.dataFetch "boom") : Except PyErr Nat))
        = (.error .retryExhausted, 4, [1/2, 1, 2])
      ∧ ∀ m, PyErr.retryExhausted ≠ PyErr.dataFetch m)
  ∧ retry 3 (1/2) (fun n => if n < 2 then (.error (.dataFetch "boom") : Except PyErr Nat) else .ok 42)
      = (.ok 42, 3, [1/2, 1]) :=
  ⟨c8_retry_behavior.1 Nat _ (fun _ => "boom") (fun _ => rfl),
   c8_retry_behavior.2 Nat _ "boom" "boom" 42 rfl rfl rfl⟩

/-! ## C1 — validation failures and the retry wrapper -/

/-- C1 counterexample: a raw market payload with no numeric `price` fails
shape validation, yet `fetch_market_data` retries it like a fetch failure —
4 attempts and the 3 backoff waits `0.5, 1, 2` — because the fetch body wraps
every exception, validation failures included, into `DataFetchError`.  This
refutes the claim that such a failure propagates with no retry attempt and no
backoff wait. -/
theorem c1_counterexample :
    BaseFetcher.validate_market_data
        ⟨Option.none, some (.num 5), Option.none, Option.none⟩
      = .error (.validationErr "missing valid price data")
  ∧ BaseFetcher.fetch_market_data "yahoo"
        (fun _ => .ok ⟨Option.none, some (.num 5), Option.none, Option.none⟩)
      = (.error .retryExhausted, 4, [1/2, 1, 2]) := by
  refine ⟨rfl, ?_⟩
  simp only [BaseFetcher.fetch_market_data, BaseFetcher.fetch_market_attempt,
    BaseFetcher.validate_market_data, retry, retryAux, Except.bind]
  norm_num

/-- C1 amended: the retry wrapper itself retries only `DataFetchError`
(anything else propagates at once with no backoff wait), but
`fetch_market_data` and `fetch_financials` wrap every failure of their body —
shape-validation failures included — into `DataFetchError`, so a payload
failing validation is retried to exhaustion exactly like a transient fetch
failure: 4 attempts and backoff waits `0.5, 1, 2`. -/
theorem c1_amended :
    (∀ (source : String) (r : RawMarket) (raw : Nat → Except PyErr RawMarket) (e : PyErr),
      (∀ n, raw n = .ok r) →
      BaseFetcher.validate_market_data r = .error e →
      BaseFetcher.fetch_market_data source raw = (.error .retryExhausted, 4, [1/2, 1, 2]))
  ∧ (∀ (source : String) (r : RawFinancials) (raw : Nat → Except PyErr RawFinancials) (e : PyErr),
      (∀ n, raw n = .ok r) →
      BaseFetcher.validate_financials r = .error e →
      BaseFetcher.fetch_financials source raw = (.error .retryExhausted, 4, [1/2, 1, 2]))
  ∧ (∀ (α : Type) (op : Nat → Except PyErr α) (e : PyErr),
      op 0 = .error e → (∀ m, e ≠ .dataFetch m) →
      retry 3 (1/2) op = (.error e, 1, [])) := by
  refine ⟨?_, ?_, ?_⟩
  · intro source r raw e hraw hval
    have hb : ∀ n, BaseFetcher.fetch_market_attempt source (raw n)
        = .error (.dataFetch (source ++ "市场数据获取失败")) := by
      intro n
      rw [hraw n]
      simp [BaseFetcher.fetch_market_attempt, Except.bind, hval]
    simp only [BaseFetcher.fetch_market_data, retry, retryAux, hb]
    norm_num
  · intro source r raw e hraw hval
    have hb : ∀ n, BaseFetcher.fetch_financials_attempt source (raw n)
        = .error (.dataFetch (source ++ "财务数据获取失败")) := by
      intro n
      rw [hraw n]
      simp [BaseFetcher.fetch_financials_attempt, Except.bind, hval]
    simp only [BaseFetcher.fetch_financials, retry, retryAux, hb]
    norm_num
  · intro α op e h0 hm
    cases e with
    | dataFetch m => exact absurd rfl (hm m)
    | retryExhausted => simp [retry, retryAux, h0]
    | validationErr m => simp [retry, retryAux, h0]
    | typeErr => simp [retry, retryAux, h0]
    | valueErr => simp [retry, retryAux, h0]

/-- C1 witness: the amended theorem at concrete inputs — a price-less market
payload, a revenue-less financial payload, and a non-`DataFetchError`
operation. -/
theorem c1_amended_witness :
    BaseFetcher.fetch_market_data "yahoo"
        (fun _ => .ok ⟨Option.none, Option.none, Option.none, Option.none⟩)
      = (.error .retryExhausted, 4, [1/2, 1, 2])
  ∧ BaseFetcher.fetch_financials "yahoo"
        (fun _ => .ok ⟨Option.none, Option.none, Option.none, Option.none, Option.none⟩)
      = (.error .retryExhausted, 4, [1/2, 1, 2])
  ∧ retry 3 (1/2) (fun _ => (.error .typeErr : Except PyErr Nat)) = (.error .typeErr, 1, []) :=
  ⟨c1_amended.1 "yahoo" _ _ (.validationErr "missing valid price data") (fun _ => rfl) rfl,
   c1_amended.2.1 "yahoo" _ _ (.validationErr "missing valid revenue data") (fun _ => rfl) rfl,
   c1_amended.2.2 Nat _ .typeErr rfl (fun _ hm => PyErr.noConfusion hm)⟩

/-! ## C2 — the DCF transition phase -/

/-- C2: evaluating the code at the failing input
`free_cash_flow = 1000, growth 5%, discount 8%, terminal 2%, N = 5`.  The
first transition cash flow produced by the source equals
`1000 * (1 + 0.0425)` — it restarts compounding from the *initial* free cash
flow, because the high-growth list comprehension never reassigns `fcf` — so
the present value differs from the claimed computation, in which the
year-6 cash flow builds on the year-5 cash flow `1000 * 1.05^5`. -/
theorem c2_dcf_transition_restarts :
    (DCFValuation.transition_loop ((1/20 - 1/50) / 4) 3 (1/20) 1000).1.headI
      = 1000 * (1 + (1/20 - (1/20 - 1/50) / 4))
  ∧ DCFValuation.calculate 1000 5 (1/20) (2/25) (1/50)
      ≠ DCFValuation.calculate_claim 1000 5 (1/20) (2/25) (1/50) := by
  constructor
  · norm_num [DCFValuation.transition_loop]
  · norm_num [DCFValuation.calculate, DCFValuation.calculate_claim,
      DCFValuation.high_growth_flows, DCFValuation.transition_loop,
      DCFValuation.discounted_sum]

/-! ## C5 — reference PE selection -/

/-- C5: evaluating the code at the failing input `pe_ratio = None`.  The
normalizer produces `pe_ratio = None` whenever the provider omits the
multiple, and `_get_pe` then raises `TypeError` from `float(None)` — which the
`except (KeyError, ValueError)` clause does not catch — instead of returning
the default 15 that the claim (and the code's own fallback logic) prescribes.
Every other case behaves as claimed: a missing key, a non-positive value and
a value above 50 give the default 15, a value in `(0, 50]` is returned
unchanged. -/
theorem c5_get_pe_none_raises :
    MonteCarloValuator.get_pe (some .pyNone) = .error .typeErr
  ∧ BaseFetcher.normalize_market_data "yahoo"
        ⟨some (.num 100), some (.num 5), Option.none, Option.none⟩
      = .ok { source := "yahoo", price := 100, volume := 5,
              pe_ratio := Option.none, currency := "USD" }
  ∧ MonteCarloValuator.get_pe (MonteCarloValuator.MarketRec.peField
        { source := "yahoo", price := 100, volume := 5,
          pe_ratio := Option.none, currency := "USD" })
      = .error .typeErr
  ∧ MonteCarloValuator.get_pe Option.none = .ok 15
  ∧ MonteCarloValuator.get_pe (some (.num 0)) = .ok 15
  ∧ MonteCarloValuator.get_pe (some (.num (-3))) = .ok 15
  ∧ MonteCarloValuator.get_pe (some (.num 60)) = .ok 15
  ∧ MonteCarloValuator.get_pe (some (.num 12)) = .ok 12 := by
  refine ⟨rfl, ?_, rfl, ?_, ?_, ?_, ?_, ?_⟩ <;>
    norm_num [MonteCarloValuator.get_pe, BaseFetcher.normalize_market_data,
      pyFloat, pyTruthy, MonteCarloValuator.MarketRec.peField, Except.bind,
      bind, pure, Except.pure, Except.map]

/-! ## C9 — invalid-input failure of the simulation engine -/

/-- C9: a missing or non-positive market price makes `run_simulation` raise
`ValueError` before any simulation draw is consumed — for every draw list and
every shock list the result is the same invalid-input error, never a
`ValuationResult`. -/
theorem c9_nonpositive_price_rejected (price : Option ℚ) (free_cash_flow : ℚ)
    (eps : Option ℚ) (dcf_growth_years : Nat) (draws : List (ℚ × ℚ × ℚ))
    (sigma : ℚ) (shocks : List ℚ) (h : price.getD 0 ≤ 0) :
    MonteCarloValuator.run_simulation price free_cash_flow eps dcf_growth_years
      draws sigma shocks = .error .valueErr := by
  unfold MonteCarloValuator.run_simulation
  simp [h]

/-- C9 witness: the theorem at a missing price and at a zero price. -/
theorem c9_nonpositive_price_rejected_witness :
    MonteCarloValuator.run_simulation Option.none 1000 (some 5) 5
        [(1/20, 2/25, 15)] (1/10) [0, 0, 0, 0] = .error .valueErr
  ∧ MonteCarloValuator.run_simulation (some 0) 1000 (some 5) 5
        [(1/20, 2/25, 15)] (1/10) [0, 0, 0, 0] = .error .valueErr :=
  ⟨c9_nonpositive_price_rejected Option.none 1000 (some 5) 5 [(1/20, 2/25, 15)]
      (1/10) [0, 0, 0, 0] (by norm_num [Option.getD]),
   c9_nonpositive_price_rejected (some 0) 1000 (some 5) 5 [(1/20, 2/25, 15)]
      (1/10) [0, 0, 0, 0] (by norm_num [Option.getD])⟩

/-! ## C6 and C10 — failover coordinator -/

theorem mem_joinErrors_infix (e : String) :
    ∀ l : List String, e ∈ l → e.data <:+: (joinErrors l).data
  | [], h => absurd h (List.not_mem_nil e)
  | [a], h => by
    rcases List.mem_singleton.mp h with rfl
    exact List.infix_refl _
  | a :: b :: t, h => by
    rcases List.mem_cons.mp h with rfl | h2
    · show e.data <:+: (e ++ "; " ++ joinErrors (b :: t)).data
      rw [String.data_append, String.data_append, List.append_assoc]
      exact (List.prefix_append e.data _).isInfix
    · have ih := mem_joinErrors_infix e (b :: t) h2
      show e.data <:+: (a ++ "; " ++ joinErrors (b :: t)).data
      rw [String.data_append]
      exact ih.trans (List.suffix_append _ _).isInfix

theorem failover_loop_no_success {α : Type} (skip : String → Bool) (header : String) :
    ∀ (ss : List (SourceSpec α)) (errors invoked : List String),
      (∀ s ∈ ss, ∀ d, s.outcome ≠ .fetchOk d) →
      (DataService.failover_loop skip header ss errors invoked).1
        = .error (header ++ joinErrors (errors ++ DataService.collect_errors skip ss))
  | [], errors, invoked, _ => by
    simp [DataService.failover_loop, DataService.collect_errors]
  | s :: rest, errors, invoked, h => by
    have hrest : ∀ s2 ∈ rest, ∀ d, s2.outcome ≠ .fetchOk d :=
      fun s2 h2 => h s2 (List.mem_cons_of_mem s h2)
    by_cases hskip : skip s.name
    · simp only [DataService.failover_loop, DataService.collect_errors, hskip,
        if_true, true_or]
      exact failover_loop_no_success skip header rest errors invoked hrest
    · by_cases hreg : s.registered
      · cases houtcome : s.outcome with
        | unavailable =>
          simp only [DataService.failover_loop, DataService.collect_errors, hskip,
            hreg, houtcome, if_false, Bool.not_true, Bool.false_eq_true, or_self]
          exact failover_loop_no_success skip header rest errors invoked hrest
        | availError r =>
          simp only [DataService.failover_loop, DataService.collect_errors, hskip,
            hreg, houtcome, if_false, Bool.not_true, Bool.false_eq_true, or_self]
          rw [failover_loop_no_success skip header rest _ invoked hrest,
            List.append_assoc]
          simp
        | fetchError r =>
          simp only [DataService.failover_loop, DataService.collect_errors, hskip,
            hreg, houtcome, if_false, Bool.not_true, Bool.false_eq_true, or_self]
          rw [failover_loop_no_success skip header rest _ _ hrest,
            List.append_assoc]
          simp
        | fetchOk d => exact absurd houtcome (h s (List.mem_cons_self s rest) d)
      · simp only [Bool.not_eq_true] at hreg
        simp only [DataService.failover_loop, DataService.collect_errors, hskip,
          hreg, if_false, Bool.not_false, if_true, or_true]
        exact failover_loop_no_success skip header rest errors invoked hrest

theorem mem_collect_errors {α : Type} (skip : String → Bool) :
    ∀ (ss : List (SourceSpec α)) (s : SourceSpec α) (r : String),
      s ∈ ss → skip s.name = false → s.registered = true →
      (s.outcome = .availError r ∨ s.outcome = .fetchError r) →
      (s.name ++ ": " ++ r) ∈ DataService.collect_errors skip ss
  | [], s, r, hmem, _, _, _ => absurd hmem (List.not_mem_nil s)
  | a :: rest, s, r, hmem, hskip, hreg, hout => by
    rcases List.mem_cons.mp hmem with rfl | h2
    · rcases hout with h | h <;>
        simp [DataService.collect_errors, hskip, hreg, h]
    · have ih := mem_collect_errors skip rest s r h2 hskip hreg hout
      by_cases hskipa : skip a.name
      · simpa [DataService.collect_errors, hskipa] using ih
      · by_cases hrega : a.registered
        · cases houtcome : a.outcome <;>
            simp [DataService.collect_errors, hskipa, hrega, houtcome, ih]
        · simp only [Bool.not_eq_true] at hrega
          simpa [DataService.collect_errors, hskipa, hrega] using ih

/-- C6: when no configured source yields data, `get_market_data` raises a
single aggregate error — never a success with partial or empty data — whose
message contains, for every registered source whose availability check or
fetch raised, the substring `"name: reason"` (and hence the source's name). -/
theorem c6_aggregate_error (α : Type) (sources : List (SourceSpec α))
    (h : ∀ s ∈ sources, ∀ d, s.outcome ≠ .fetchOk d) :
    (DataService.get_market_data sources).1
      = .error ("所有数据源均不可用\n详细错误: "
          ++ joinErrors (DataService.collect_errors (fun _ => false) sources))
  ∧ ∀ s ∈ sources, ∀ r, s.registered = true →
      (s.outcome = .availError r ∨ s.outcome = .fetchError r) →
      (s.name ++ ": " ++ r).data <:+:
        ("所有数据源均不可用\n详细错误: "
          ++ joinErrors (DataService.collect_errors (fun _ => false) sources)).data := by
  constructor
  · have := failover_loop_no_success (α := α) (fun _ => false)
      "所有数据源均不可用\n详细错误: " sources [] [] h
    simpa [DataService.get_market_data] using this
  · intro s hs r hreg hout
    have hmem := mem_collect_errors (fun _ => false) sources s r hs rfl hreg hout
    have hinf := mem_joinErrors_infix _ _ hmem
    rw [String.data_append]
    exact hinf.trans (List.suffix_append _ _).isInfix

/-- C6 witness: all three configured sources fail; the aggregate message is
the concrete string below, and it contains all three source names. -/
theorem c6_aggregate_error_witness :
    (DataService.get_market_data (α := Nat)
        [⟨"yahoo", true, .fetchError "boom"⟩,
         ⟨"alpha_vantage", true, .fetchError "down"⟩,
         ⟨"fmp", true, .fetchError "nope"⟩]).1
      = .error "所有数据源均不可用\n详细错误: yahoo: boom; alpha_vantage: down; fmp: nope"
  ∧ "yahoo".data
      <:+: "所有数据源均不可用\n详细错误: yahoo: boom; alpha_vantage: down; fmp: nope".data
  ∧ "alpha_vantage".data
      <:+: "所有数据源均不可用\n详细错误: yahoo: boom; alpha_vantage: down; fmp: nope".data
  ∧ "fmp".data
      <:+: "所有数据源均不可用\n详细错误: yahoo: boom; alpha_vantage: down; fmp: nope".data := by
  have h := c6_aggregate_error Nat
    [⟨"yahoo", true, .fetchError "boom"⟩,
     ⟨"alpha_vantage", true, .fetchError "down"⟩,
     ⟨"fmp", true, .fetchError "nope"⟩]
    (by intro s hs d; simp at hs; rcases hs with rfl | rfl | rfl <;> simp)
  refine ⟨h.1.trans (congrArg Except.error (by decide)), ?_, ?_, ?_⟩
  · have h2 := h.2 ⟨"yahoo", true, .fetchError "boom"⟩ (by simp) "boom" rfl (Or.inr rfl)
    rw [show ("所有数据源均不可用\n详细错误: "
        ++ joinErrors (DataService.collect_errors (α := Nat) (fun _ => false)
          [⟨"yahoo", true, .fetchError "boom"⟩,
           ⟨"alpha_vantage", true, .fetchError "down"⟩,
           ⟨"fmp", true, .fetchError "nope"⟩]))
      = "所有数据源均不可用\n详细错误: yahoo: boom; alpha_vantage: down; fmp: nope" from by decide] at h2
    exact ((List.prefix_append "yahoo".data (": " ++ "boom").data).isInfix.trans
      (by simpa [String.data_append] using h2))
  · have h2 := h.2 ⟨"alpha_vantage", true, .fetchError "down"⟩ (by simp) "down" rfl (Or.inr rfl)
    rw [show ("所有数据源均不可用\n详细错误: "
        ++ joinErrors (DataService.collect_errors (α := Nat) (fun _ => false)
          [⟨"yahoo", true, .fetchError "boom"⟩,
           ⟨"alpha_vantage", true, .fetchError "down"⟩,
           ⟨"fmp", true, .fetchError "nope"⟩]))
      = "所有数据源均不可用\n详细错误: yahoo: boom; alpha_vantage: down; fmp: nope" from by decide] at h2
    exact ((List.prefix_append "alpha_vantage".data (": " ++ "down").data).isInfix.trans
      (by simpa [String.data_append] using h2))
  · have h2 := h.2 ⟨"fmp", true, .fetchError "nope"⟩ (by simp) "nope" rfl (Or.inr rfl)
    rw [show ("所有数据源均不可用\n详细错误: "
        ++ joinErrors (DataService.collect_errors (α := Nat) (fun _ => false)
          [⟨"yahoo", true, .fetchError "boom"⟩,
           ⟨"alpha_vantage", true, .fetchError "down"⟩,
           ⟨"fmp", true, .fetchError "nope"⟩]))
      = "所有数据源均不可用\n详细错误: yahoo: boom; alpha_vantage: down; fmp: nope" from by decide] at h2
    exact ((List.prefix_append "fmp".data (": " ++ "nope").data).isInfix.trans
      (by simpa [String.data_append] using h2))

theorem failover_loop_invoked_mono {α : Type} (skip : String → Bool) (header : String)
    (x : String) :
    ∀ (ss : List (SourceSpec α)) (errors invoked : List String),
      x ∈ invoked → x ∈ (DataService.failover_loop skip header ss errors invoked).2
  | [], errors, invoked, h => by simpa [DataService.failover_loop] using h
  | s :: rest, errors, invoked, h => by
    by_cases hskip : skip s.name
    · simp only [DataService.failover_loop, hskip, if_true]
      exact failover_loop_invoked_mono skip header x rest errors invoked h
    · by_cases hreg : s.registered
      · cases houtcome : s.outcome with
        | unavailable =>
          simp only [DataService.failover_loop, hskip, hreg, houtcome, if_false,
            Bool.not_true, Bool.false_eq_true]
          exact failover_loop_invoked_mono skip header x rest errors invoked h
        | availError r =>
          simp only [DataService.failover_loop, hskip, hreg, houtcome, if_false,
            Bool.not_true, Bool.false_eq_true]
          exact failover_loop_invoked_mono skip header x rest _ invoked h
        | fetchError r =>
          simp only [DataService.failover_loop, hskip, hreg, houtcome, if_false,
            Bool.not_true, Bool.false_eq_true]
          exact failover_loop_invoked_mono skip header x rest _ _
            (List.mem_append_left _ h)
        | fetchOk d =>
          simp only [DataService.failover_loop, hskip, hreg, houtcome, if_false,
            Bool.not_true, Bool.false_eq_true]
          exact List.mem_append_left _ h
      · simp only [Bool.not_eq_true] at hreg
        simp only [DataService.failover_loop, hskip, hreg, if_false, Bool.not_false,
          if_true]
        exact failover_loop_invoked_mono skip header x rest errors invoked h

theorem failover_loop_skip_not_invoked {α : Type} (skip : String → Bool) (header : String)
    (x : String) (hx : skip x = true) :
    ∀ (ss : List (SourceSpec α)) (errors invoked : List String),
      x ∉ invoked → x ∉ (DataService.failover_loop skip header ss errors invoked).2
  | [], errors, invoked, h => by simpa [DataService.failover_loop] using h
  | s :: rest, errors, invoked, h => by
    by_cases hskip : skip s.name
    · simp only [DataService.failover_loop, hskip, if_true]
      exact failover_loop_skip_not_invoked skip header x hx rest errors invoked h
    · have hxs : x ≠ s.name := fun hxeq => hskip (hxeq ▸ hx)
      by_cases hreg : s.registered
      · cases houtcome : s.outcome with
        | unavailable =>
          simp only [DataService.failover_loop, hskip, hreg, houtcome, if_false,
            Bool.not_true, Bool.false_eq_true]
          exact failover_loop_skip_not_invoked skip header x hx rest errors invoked h
        | availError r =>
          simp only [DataService.failover_loop, hskip, hreg, houtcome, if_false,
            Bool.not_true, Bool.false_eq_true]
          exact failover_loop_skip_not_invoked skip header x hx rest _ invoked h
        | fetchError r =>
          simp only [DataService.failover_loop, hskip, hreg, houtcome, if_false,
            Bool.not_true, Bool.false_eq_true]
          refine failover_loop_skip_not_invoked skip header x hx rest _ _ ?_
          simp [h, hxs]
        | fetchOk d =>
          simp only [DataService.failover_loop, hskip, hreg, houtcome, if_false,
            Bool.not_true, Bool.false_eq_true]
          simp [h, hxs]
      · simp only [Bool.not_eq_true] at hreg
        simp only [DataService.failover_loop, hskip, hreg, if_false, Bool.not_false,
          if_true]
        exact failover_loop_skip_not_invoked skip header x hx rest errors invoked h

/-- C10: `get_financials` never invokes the `alpha_vantage` fetcher, for every
configured source list — even when that source is first, registered and would
succeed — whereas `get_market_data` does invoke it according to priority
whenever it heads the priority list, is registered and its fetch is
reachable. -/
theorem c10_alpha_vantage_excluded :
    (∀ (α : Type) (sources : List (SourceSpec α)),
      "alpha_vantage" ∉ (DataService.get_financials sources).2)
  ∧ (∀ (α : Type) (s : SourceSpec α) (rest : List (SourceSpec α)),
      s.name = "alpha_vantage" → s.registered = true →
      ((∃ r, s.outcome = .fetchError r) ∨ (∃ d, s.outcome = .fetchOk d)) →
      "alpha_vantage" ∈ (DataService.get_market_data (s :: rest)).2) := by
  constructor
  · intro α sources
    exact failover_loop_skip_not_invoked _ _ "alpha_vantage" (by simp) sources [] []
      (List.not_mem_nil _)
  · intro α s rest hname hreg hout
    rcases hout with ⟨r, houtcome⟩ | ⟨d, houtcome⟩
    · simp only [DataService.get_market_data, DataService.failover_loop, hreg,
        houtcome, if_false, Bool.not_true, Bool.false_eq_true]
      exact failover_loop_invoked_mono _ _ "alpha_vantage" rest _ _ (by simp [hname])
    · simp only [DataService.get_market_data, DataService.failover_loop, hreg,
        houtcome, if_false, Bool.not_true, Bool.false_eq_true]
      simp [hname]

/-- C10 witness: with `alpha_vantage` first in priority, registered and
succeeding, `get_financials` does not invoke it while `get_market_data`
does. -/
theorem c10_alpha_vantage_excluded_witness :
    "alpha_vantage" ∉ (DataService.get_financials (α := Nat)
        [⟨"alpha_vantage", true, .fetchOk 7⟩, ⟨"yahoo", true, .fetchOk 3⟩]).2
  ∧ "alpha_vantage" ∈ (DataService.get_market_data (α := Nat)
        [⟨"alpha_vantage", true, .fetchOk 7⟩, ⟨"yahoo", true, .fetchOk 3⟩]).2 :=
  ⟨c10_alpha_vantage_excluded.1 Nat
      [⟨"alpha_vantage", true, .fetchOk 7⟩, ⟨"yahoo", true, .fetchOk 3⟩],
   c10_alpha_vantage_excluded.2 Nat ⟨"alpha_vantage", true, .fetchOk 7⟩
      [⟨"yahoo", true, .fetchOk 3⟩] rfl rfl (Or.inr ⟨7, rfl⟩)⟩

/-! ## C7 — clamping invariant of the draw set -/

theorem npClip_bounds (x lo hi : ℚ) (h : lo ≤ hi) :
    lo ≤ npClip x lo hi ∧ npClip x lo hi ≤ hi :=
  ⟨le_min (le_max_right x lo) h, min_le_right _ _⟩

theorem npPercentile_bounds (xs : List ℚ) (lo hi q : ℚ) (hne : xs ≠ [])
    (hb : ∀ x ∈ xs, lo ≤ x ∧ x ≤ hi) (h0 : 0 ≤ q) (h1 : q ≤ 100) :
    lo ≤ npPercentile xs q ∧ npPercentile xs q ≤ hi := by
  simp only [npPercentile]
  set s := xs.insertionSort (· ≤ ·) with hs
  have hperm : s.Perm xs := List.perm_insertionSort _ xs
  have hmem : ∀ x ∈ s, lo ≤ x ∧ x ≤ hi := fun x hx => hb x (hperm.mem_iff.mp hx)
  have hpos : 0 < s.length := by
    rw [hperm.length_eq]
    exact List.length_pos.mpr hne
  have hn1 : (1:ℚ) ≤ (s.length : ℚ) := by exact_mod_cast hpos
  set pos := q * ((s.length : ℚ) - 1) / 100 with hpos2
  have hpos0 : 0 ≤ pos := by
    apply div_nonneg _ (by norm_num)
    exact mul_nonneg h0 (by linarith)
  have hposle : pos ≤ (s.length : ℚ) - 1 := by
    rw [hpos2, div_le_iff₀ (by norm_num : (0:ℚ) < 100)]
    nlinarith
  have hfloor0 : 0 ≤ ⌊pos⌋ := Int.floor_nonneg.mpr hpos0
  have hic : ((⌊pos⌋.toNat : ℕ) : ℚ) = ((⌊pos⌋ : ℤ) : ℚ) := by
    exact_mod_cast Int.toNat_of_nonneg hfloor0
  have hiq : ((⌊pos⌋.toNat : ℕ) : ℚ) ≤ pos := by
    rw [hic]
    exact Int.floor_le pos
  have hilt : ⌊pos⌋.toNat < s.length := by
    have h2 : ((⌊pos⌋.toNat : ℕ) : ℚ) < (s.length : ℚ) := by linarith
    exact_mod_cast h2
  have hfrac0 : 0 ≤ pos - ⌊pos⌋ := by
    have := Int.floor_le pos
    linarith
  have hfrac1 : pos - ⌊pos⌋ < 1 := by
    have := Int.lt_floor_add_one pos
    linarith
  have ha : s.getD ⌊pos⌋.toNat 0 ∈ s := by
    rw [List.getD_eq_getElem s 0 hilt]
    exact List.getElem_mem hilt
  obtain ⟨ha1, ha2⟩ := hmem _ ha
  have hbb : lo ≤ s.getD (⌊pos⌋.toNat + 1) (s.getD ⌊pos⌋.toNat 0)
      ∧ s.getD (⌊pos⌋.toNat + 1) (s.getD ⌊pos⌋.toNat 0) ≤ hi := by
    by_cases h2 : ⌊pos⌋.toNat + 1 < s.length
    · refine hmem _ ?_
      rw [List.getD_eq_getElem s _ h2]
      exact List.getElem_mem h2
    · rw [List.getD_eq_default s _ (by omega)]
      exact ⟨ha1, ha2⟩
  constructor <;> nlinarith [hbb.1, hbb.2]

/-- C7: with a positive current price, every stored simulation value — each
draw's combined valuation after `np.clip` — lies in
`[0.8 * current_price, 1.5 * current_price]`, and consequently so does every
percentile (in particular the 25th/50th/75th forming
`valuation_range.low/medium/high`) computed from a non-empty draw set. -/
theorem c7_combined_clamped (free_cash_flow eps : ℚ) (dcf_growth_years : Nat)
    (current_price : ℚ) (draws : List (ℚ × ℚ × ℚ)) (hp : 0 < current_price) :
    (∀ v ∈ MonteCarloValuator.run_monte_carlo free_cash_flow eps dcf_growth_years
        current_price draws,
      current_price * (4/5) ≤ v ∧ v ≤ current_price * (3/2))
  ∧ (draws ≠ [] → ∀ q : ℚ, 0 ≤ q → q ≤ 100 →
      current_price * (4/5)
          ≤ npPercentile (MonteCarloValuator.run_monte_carlo free_cash_flow eps
              dcf_growth_years current_price draws) q
        ∧ npPercentile (MonteCarloValuator.run_monte_carlo free_cash_flow eps
            dcf_growth_years current_price draws) q ≤ current_price * (3/2)) := by
  have hlh : current_price * (4/5) ≤ current_price * (3/2) := by nlinarith
  have hmemb : ∀ v ∈ MonteCarloValuator.run_monte_carlo free_cash_flow eps
      dcf_growth_years current_price draws,
      current_price * (4/5) ≤ v ∧ v ≤ current_price * (3/2) := by
    intro v hv
    simp only [MonteCarloValuator.run_monte_carlo, List.mem_map] at hv
    obtain ⟨d, _, rfl⟩ := hv
    exact npClip_bounds _ _ _ hlh
  refine ⟨hmemb, fun hne q h0 h1 => npPercentile_bounds _ _ _ q ?_ hmemb h0 h1⟩
  intro hmape
  simp only [MonteCarloValuator.run_monte_carlo, List.map_eq_nil_iff] at hmape
  exact hne hmape

/-- C7 witness: the theorem at a concrete draw whose combined value would be
`112.5` against price `100`, checked at the median percentile. -/
theorem c7_combined_clamped_witness :
    (0:ℚ) < 100
  ∧ ((100:ℚ) * (4/5)
        ≤ npPercentile (MonteCarloValuator.run_monte_carlo 0 1 5 100 [(0, 0, 375)]) 50
      ∧ npPercentile (MonteCarloValuator.run_monte_carlo 0 1 5 100 [(0, 0, 375)]) 50
        ≤ 100 * (3/2)) :=
  ⟨by norm_num,
   (c7_combined_clamped 0 1 5 100 [(0, 0, 375)] (by norm_num)).2 (by simp) 50
     (by norm_num) (by norm_num)⟩

/-! ## C3 and C4 — the returned ValuationResult -/

theorem calculate_probabilities_shape (sims : List ℚ) (p : ℚ) :
    ∃ u o : ℚ, MonteCarloValuator.calculate_probabilities sims p
      = (pyRound 4 u, pyRound 4 o, pyRound 4 (1 - u - o)) :=
  ⟨_, _, rfl⟩

theorem run_simulation_ok_shape (price : Option ℚ) (free_cash_flow : ℚ)
    (eps : Option ℚ) (dcf_growth_years : Nat) (draws : List (ℚ × ℚ × ℚ))
    (sigma : ℚ) (shocks : List ℚ) (res : MonteCarloValuator.ValuationResult)
    (h : MonteCarloValuator.run_simulation price free_cash_flow eps dcf_growth_years
        draws sigma shocks = .ok res) :
    ∃ sims drift,
      sims = MonteCarloValuator.run_monte_carlo free_cash_flow (eps.getD 0)
        dcf_growth_years (price.getD 0) draws
      ∧ res = { low := npPercentile sims 25
                medium := npPercentile sims 50
                high := npPercentile sims 75
                undervalued := (MonteCarloValuator.calculate_probabilities sims (price.getD 0)).1
                overvalued := (MonteCarloValuator.calculate_probabilities sims (price.getD 0)).2.1
                fair_valued := (MonteCarloValuator.calculate_probabilities sims (price.getD 0)).2.2
                next_quarters := MonteCarloValuator.predict_next_quarters (price.getD 0)
                  drift sigma shocks } := by
  simp only [MonteCarloValuator.run_simulation] at h
  by_cases hp : price.getD 0 ≤ 0
  · simp [hp] at h
  · simp only [hp, if_false] at h
    injection h with h2
    exact ⟨_, _, rfl, h2.symm⟩

/-- C3 amended: the three probabilities of every returned `ValuationResult`
sum to 1 up to the three 4-decimal rounding errors, i.e. within `1.5e-4`
(before rounding the sum is exactly 1, since `fair_valued` is defined as the
complement); the claimed tolerance `1e-6` does not survive the rounding. -/
theorem c3_probabilities_sum (price : Option ℚ) (free_cash_flow : ℚ)
    (eps : Option ℚ) (dcf_growth_years : Nat) (draws : List (ℚ × ℚ × ℚ))
    (sigma : ℚ) (shocks : List ℚ) (res : MonteCarloValuator.ValuationResult)
    (h : MonteCarloValuator.run_simulation price free_cash_flow eps dcf_growth_years
        draws sigma shocks = .ok res) :
    |res.undervalued + res.overvalued + res.fair_valued - 1| ≤ 3/20000 := by
  obtain ⟨sims, drift, -, rfl⟩ := run_simulation_ok_shape price free_cash_flow eps
    dcf_growth_years draws sigma shocks res h
  obtain ⟨u, o, hcp⟩ := calculate_probabilities_shape sims (price.getD 0)
  show |(MonteCarloValuator.calculate_probabilities sims (price.getD 0)).1
    + (MonteCarloValuator.calculate_probabilities sims (price.getD 0)).2.1
    + (MonteCarloValuator.calculate_probabilities sims (price.getD 0)).2.2 - 1| ≤ 3/20000
  rw [hcp]
  have h1 := abs_pyRound_sub_le 4 u
  have h2 := abs_pyRound_sub_le 4 o
  have h3 := abs_pyRound_sub_le 4 (1 - u - o)
  rw [abs_le] at h1 h2 h3
  have e : pyRound 4 u + pyRound 4 o + pyRound 4 (1 - u - o) - 1
      = (pyRound 4 u - u) + (pyRound 4 o - o) + (pyRound 4 (1 - u - o) - (1 - u - o)) := by
    ring
  show |pyRound 4 u + pyRound 4 o + pyRound 4 (1 - u - o) - 1| ≤ 3/20000
  rw [e, abs_le]
  norm_num at h1 h2 h3 ⊢
  constructor <;> linarith

/-- C3 witness: the amended theorem at a single-draw run whose probabilities
are `(0, 0, 1)`. -/
theorem c3_probabilities_sum_witness : |(0:ℚ) + 0 + 1 - 1| ≤ 3/20000 := by
  have hrun : MonteCarloValuator.run_simulation (some 100) 0 (some 1) 5
      [(0, 0, 1000/3)] 0 [] = .ok ⟨100, 100, 100, 0, 0, 1, []⟩ := by
    have hsims : MonteCarloValuator.run_monte_carlo 0 1 5 100 [(0, 0, 1000/3)] = [100] := by
      norm_num [MonteCarloValuator.run_monte_carlo, DCFValuation.calculate,
        DCFValuation.high_growth_flows, DCFValuation.transition_loop,
        DCFValuation.discounted_sum, npClip, min_def, max_def]
    simp only [MonteCarloValuator.run_simulation]
    rw [show (some (100:ℚ)).getD 0 = 100 from rfl, if_neg (by norm_num)]
    simp only [Option.getD]
    rw [hsims]
    have hprobs : MonteCarloValuator.calculate_probabilities [(100:ℚ)] 100 = (0, 0, 1) := by
      simp only [MonteCarloValuator.calculate_probabilities]
      norm_num [List.countP, List.countP.go, pyRound, roundHalfEven, Int.fract]
    have hperc : ∀ q : ℚ, npPercentile [(100:ℚ)] q = 100 := by
      intro q
      simp only [npPercentile]
      norm_num [List.insertionSort, List.orderedInsert]
    rw [hprobs, hperc 25, hperc 50, hperc 75]
    norm_num [MonteCarloValuator.predict_next_quarters,
      MonteCarloValuator.predict_quarters_loop]
  exact c3_probabilities_sum (some 100) 0 (some 1) 5 [(0, 0, 1000/3)] 0 []
    ⟨100, 100, 100, 0, 0, 1, []⟩ hrun

/-- C3 counterexample: a run with three draws at `85, 115, 100` against price
`100` returns probabilities `(0.3333, 0.3333, 0.3333)`; their sum `0.9999`
misses 1 by `1e-4`, more than the claimed tolerance `1e-6`. -/
theorem c3_counterexample :
    MonteCarloValuator.run_simulation (some 100) 0 (some 1) 5
        [(0, 0, 850/3), (0, 0, 1150/3), (0, 0, 1000/3)] 0 []
      = .ok ⟨185/2, 100, 215/2, 3333/10000, 3333/10000, 3333/10000, []⟩
  ∧ ¬ (|(3333:ℚ)/10000 + 3333/10000 + 3333/10000 - 1| ≤ 1/1000000) := by
  constructor
  · have hsims : MonteCarloValuator.run_monte_carlo 0 1 5 100
        [(0, 0, 850/3), (0, 0, 1150/3), (0, 0, 1000/3)] = [85, 115, 100] := by
      norm_num [MonteCarloValuator.run_monte_carlo, DCFValuation.calculate,
        DCFValuation.high_growth_flows, DCFValuation.transition_loop,
        DCFValuation.discounted_sum, npClip, min_def, max_def]
    simp only [MonteCarloValuator.run_simulation]
    rw [show (some (100:ℚ)).getD 0 = 100 from rfl, if_neg (by norm_num)]
    simp only [Option.getD]
    rw [hsims]
    have hsort : List.insertionSort (· ≤ ·) [(85:ℚ), 115, 100] = [85, 100, 115] := by
      norm_num [List.insertionSort, List.orderedInsert]
    have hprobs : MonteCarloValuator.calculate_probabilities [(85:ℚ), 115, 100] 100
        = (3333/10000, 3333/10000, 3333/10000) := by
      simp only [MonteCarloValuator.calculate_probabilities]
      norm_num [List.countP, List.countP.go, pyRound, roundHalfEven, Int.fract]
    have hp25 : npPercentile [(85:ℚ), 115, 100] 25 = 185/2 := by
      simp only [npPercentile]
      rw [hsort]
      norm_num
    have hp50 : npPercentile [(85:ℚ), 115, 100] 50 = 100 := by
      simp only [npPercentile]
      rw [hsort]
      norm_num
    have hp75 : npPercentile [(85:ℚ), 115, 100] 75 = 215/2 := by
      simp only [npPercentile]
      rw [hsort]
      norm_num
    rw [hprobs, hp25, hp50, hp75]
    norm_num [MonteCarloValuator.predict_next_quarters,
      MonteCarloValuator.predict_quarters_loop]
  · rw [show (3333:ℚ)/10000 + 3333/10000 + 3333/10000 - 1 = -(1/10000) by norm_num,
      abs_neg, abs_of_pos (by norm_num : (0:ℚ) < 1/10000)]
    norm_num

theorem mem_predict_quarters_loop (current_price drift sigma : ℚ) :
    ∀ (zs : List ℚ) (p x : ℚ),
      x ∈ MonteCarloValuator.predict_quarters_loop current_price drift sigma zs p →
      ∃ y, x = pyRound 2 y
  | [], p, x, h => absurd h (List.not_mem_nil x)
  | z :: zs, p, x, h => by
    simp only [MonteCarloValuator.predict_quarters_loop, List.mem_cons] at h
    rcases h with rfl | h2
    · exact ⟨_, rfl⟩
    · exact mem_predict_quarters_loop current_price drift sigma zs _ x h2

/-- C4 amended: in every returned `ValuationResult` the probabilities are
4-decimal values and the quarterly price predictions are 2-decimal values
(each is a fixed point of the corresponding rounding), but
`valuation_range.low/medium/high` are returned as raw percentiles without
rounding. -/
theorem c4_output_rounding (price : Option ℚ) (free_cash_flow : ℚ)
    (eps : Option ℚ) (dcf_growth_years : Nat) (draws : List (ℚ × ℚ × ℚ))
    (sigma : ℚ) (shocks : List ℚ) (res : MonteCarloValuator.ValuationResult)
    (h : MonteCarloValuator.run_simulation price free_cash_flow eps dcf_growth_years
        draws sigma shocks = .ok res) :
    (res.undervalued = pyRound 4 res.undervalued
      ∧ res.overvalued = pyRound 4 res.overvalued
      ∧ res.fair_valued = pyRound 4 res.fair_valued)
  ∧ (∀ x ∈ res.next_quarters, x = pyRound 2 x) := by
  obtain ⟨sims, drift, -, rfl⟩ := run_simulation_ok_shape price free_cash_flow eps
    dcf_growth_years draws sigma shocks res h
  obtain ⟨u, o, hcp⟩ := calculate_probabilities_shape sims (price.getD 0)
  constructor
  · refine ⟨?_, ?_, ?_⟩
    · show (MonteCarloValuator.calculate_probabilities sims (price.getD 0)).1
        = pyRound 4 (MonteCarloValuator.calculate_probabilities sims (price.getD 0)).1
      rw [hcp]
      exact (pyRound_pyRound 4 u).symm
    · show (MonteCarloValuator.calculate_probabilities sims (price.getD 0)).2.1
        = pyRound 4 (MonteCarloValuator.calculate_probabilities sims (price.getD 0)).2.1
      rw [hcp]
      exact (pyRound_pyRound 4 o).symm
    · show (MonteCarloValuator.calculate_probabilities sims (price.getD 0)).2.2
        = pyRound 4 (MonteCarloValuator.calculate_probabilities sims (price.getD 0)).2.2
      rw [hcp]
      exact (pyRound_pyRound 4 (1 - u - o)).symm
  · intro x hx
    simp only [MonteCarloValuator.predict_next_quarters] at hx
    obtain ⟨y, rfl⟩ := mem_predict_quarters_loop _ _ _ shocks _ x hx
    exact (pyRound_pyRound 2 y).symm

/-- C4 witness: the amended theorem at a single-draw, single-quarter run. -/
theorem c4_output_rounding_witness :
    (((0:ℚ) = pyRound 4 0) ∧ ((0:ℚ) = pyRound 4 0) ∧ ((1:ℚ) = pyRound 4 1))
  ∧ (100:ℚ) = pyRound 2 100 := by
  have hrun : MonteCarloValuator.run_simulation (some 100) 0 (some 1) 5
      [(0, 0, 1000/3)] 0 [0] = .ok ⟨100, 100, 100, 0, 0, 1, [100]⟩ := by
    have hsims : MonteCarloValuator.run_monte_carlo 0 1 5 100 [(0, 0, 1000/3)] = [100] := by
      norm_num [MonteCarloValuator.run_monte_carlo, DCFValuation.calculate,
        DCFValuation.high_growth_flows, DCFValuation.transition_loop,
        DCFValuation.discounted_sum, npClip, min_def, max_def]
    simp only [MonteCarloValuator.run_simulation]
    rw [show (some (100:ℚ)).getD 0 = 100 from rfl, if_neg (by norm_num)]
    simp only [Option.getD]
    rw [hsims]
    have hprobs : MonteCarloValuator.calculate_probabilities [(100:ℚ)] 100 = (0, 0, 1) := by
      simp only [MonteCarloValuator.calculate_probabilities]
      norm_num [List.countP, List.countP.go, pyRound, roundHalfEven, Int.fract]
    have hperc : ∀ q : ℚ, npPercentile [(100:ℚ)] q = 100 := by
      intro q
      simp only [npPercentile]
      norm_num [List.insertionSort, List.orderedInsert]
    rw [hprobs, hperc 25, hperc 50, hperc 75]
    norm_num [listMean, MonteCarloValuator.predict_next_quarters,
      MonteCarloValuator.predict_quarters_loop, npClip, min_def, max_def,
      pyRound, roundHalfEven, Int.fract]
  have h := c4_output_rounding (some 100) 0 (some 1) 5 [(0, 0, 1000/3)] 0 [0]
    ⟨100, 100, 100, 0, 0, 1, [100]⟩ hrun
  exact ⟨h.1, h.2 100 (by simp)⟩

/-- C4 counterexample: a run whose 25th percentile is `100.016` returns it
unrounded as `valuation_range.low` — `round(100.016, 2) = 100.02 ≠ 100.016`,
so the price-valued range fields are not rounded to 2 decimals. -/
theorem c4_counterexample :
    MonteCarloValuator.run_simulation (some 100) 0 (some 1) 5
        [(0, 0, 25004/75)] 0 []
      = .ok ⟨12502/125, 12502/125, 12502/125, 0, 0, 1, []⟩
  ∧ pyRound 2 ((12502:ℚ)/125) ≠ 12502/125 := by
  constructor
  · have hsims : MonteCarloValuator.run_monte_carlo 0 1 5 100 [(0, 0, 25004/75)]
        = [12502/125] := by
      norm_num [MonteCarloValuator.run_monte_carlo, DCFValuation.calculate,
        DCFValuation.high_growth_flows, DCFValuation.transition_loop,
        DCFValuation.discounted_sum, npClip, min_def, max_def]
    simp only [MonteCarloValuator.run_simulation]
    rw [show (some (100:ℚ)).getD 0 = 100 from rfl, if_neg (by norm_num)]
    simp only [Option.getD]
    rw [hsims]
    have hprobs : MonteCarloValuator.calculate_probabilities [(12502:ℚ)/125] 100
        = (0, 0, 1) := by
      simp only [MonteCarloValuator.calculate_probabilities]
      norm_num [List.countP, List.countP.go, pyRound, roundHalfEven, Int.fract]
    have hperc : ∀ q : ℚ, npPercentile [(12502:ℚ)/125] q = 12502/125 := by
      intro q
      simp only [npPercentile]
      norm_num [List.insertionSort, List.orderedInsert]
    rw [hprobs, hperc 25, hperc 50, hperc 75]
    norm_num [MonteCarloValuator.predict_next_quarters,
      MonteCarloValuator.predict_quarters_loop]
  · norm_num [pyRound, roundHalfEven, Int.fract]

end StockVal
